import Mathlib

/-!
# Verification of the subdivision-evaluation-to-mesh pipeline

Shallow embedding of `source/blender/blenkernel/intern/subdiv_mesh.cc` and
`source/blender/blenkernel/intern/mesh_tangent.cc`.  Geometric arithmetic is
modelled exactly over `ℚ`; mesh elements (`MVert`, `MEdge`, `MPoly`, `MLoop`)
are records of indices and coordinates; the limit evaluator, the custom-data
container and the traversal driver are kept abstract, exactly as the code
treats them (oracles invoked through a fixed contract).
-/

/-! ## Vectors and BLI math helpers (`BLI_math_vector.h`) -/

/-- A 3-component vector with exact rational components (models `float[3]`). -/
structure Vec3 where
  x : ℚ
  y : ℚ
  z : ℚ
deriving DecidableEq, Repr

instance : Inhabited Vec3 := ⟨⟨0, 0, 0⟩⟩

/-- The zero vector (subdivided-mesh vertices start at calloc'ed zero). -/
def Vec3.zero : Vec3 := ⟨0, 0, 0⟩

/-- Model of `add_v3_v3(r, a)`: component-wise sum (functional form). -/
def add_v3_v3 (r a : Vec3) : Vec3 := ⟨r.x + a.x, r.y + a.y, r.z + a.z⟩

/-- Model of `sub_v3_v3v3(r, a, b)`: component-wise difference. -/
def sub_v3_v3v3 (a b : Vec3) : Vec3 := ⟨a.x - b.x, a.y - b.y, a.z - b.z⟩

/-- Model of `mul_v3_fl(r, f)`: scale by a scalar. -/
def mul_v3_fl (a : Vec3) (f : ℚ) : Vec3 := ⟨f * a.x, f * a.y, f * a.z⟩

/-- Model of `interp_v3_v3v3(target, a, b, t)`: linear interpolation. -/
def interp_v3_v3v3 (a b : Vec3) (t : ℚ) : Vec3 :=
  ⟨(1 - t) * a.x + t * b.x, (1 - t) * a.y + t * b.y, (1 - t) * a.z + t * b.z⟩

/-- Model of `interp_v3_v3v3v3v3(p, a, b, c, d, weights)`: 4-point weighted blend. -/
def interp_v3_v3v3v3v3 (a b c d : Vec3) (w : ℚ × ℚ × ℚ × ℚ) : Vec3 :=
  ⟨w.1 * a.x + w.2.1 * b.x + w.2.2.1 * c.x + w.2.2.2 * d.x,
   w.1 * a.y + w.2.1 * b.y + w.2.2.1 * c.y + w.2.2.2 * d.y,
   w.1 * a.z + w.2.1 * b.z + w.2.2.1 * c.z + w.2.2.2 * d.z⟩

/-- Sum of a list of vectors (left fold, as repeated `add_v3_v3`). -/
def v3_sum (ds : List Vec3) : Vec3 := ds.foldl add_v3_v3 Vec3.zero

/-! ## Coarse mesh data model (`DNA_meshdata_types.h`) -/

/-- A mesh vertex: position (custom-data payload is tracked separately). -/
structure MVert where
  co : Vec3
deriving DecidableEq, Repr

instance : Inhabited MVert := ⟨⟨Vec3.zero⟩⟩

/-- A mesh edge: two vertex indices and a bit-flag word. -/
structure MEdge where
  v1 : Nat
  v2 : Nat
  flag : Nat
deriving DecidableEq, Repr

instance : Inhabited MEdge := ⟨⟨0, 0, 0⟩⟩

/-- A mesh polygon: first loop index and loop count. -/
structure MPoly where
  loopstart : Nat
  totloop : Nat
deriving DecidableEq, Repr

instance : Inhabited MPoly := ⟨⟨0, 0⟩⟩

/-- A mesh loop (polygon corner): vertex index and edge index. -/
structure MLoop where
  v : Nat
  e : Nat
deriving DecidableEq, Repr

instance : Inhabited MLoop := ⟨⟨0, 0⟩⟩

/-! ## Entry-point control flow (`BKE_subdiv_to_mesh`) -/

/-- What one complete run of the foreach traversal produces: the output mesh
built by the callbacks.  The geometry pass itself is driver-owned; for the
entry-point control-flow claim only the fact that it ran and produced a mesh
matters. -/
structure SubdivMeshRun where
  geometry_traversed : Bool
deriving DecidableEq, Repr

/-- The body of `BKE_subdiv_to_mesh` past the evaluator check: set up the
context, wire the callbacks, run `BKE_subdiv_foreach_subdiv_geometry`, return
the built mesh. -/
def subdiv_to_mesh_run_foreach : SubdivMeshRun := ⟨true⟩

/-- Model of `BKE_subdiv_to_mesh` control flow: if `BKE_subdiv_eval_begin_from_mesh`
fails, an early `nullptr` return happens only when the coarse mesh has
polygons (`coarse_mesh->totpoly` truthy); otherwise processing continues. -/
def BKE_subdiv_to_mesh (eval_begin_ok : Bool) (coarse_totpoly : Nat) :
    Option SubdivMeshRun :=
  if ¬ eval_begin_ok then
    if coarse_totpoly ≠ 0 then none
    else some subdiv_to_mesh_run_foreach
  else some subdiv_to_mesh_run_foreach

/-- C2: evaluator-setup failure on a coarse mesh with at least one polygon
makes `BKE_subdiv_to_mesh` return null with no output mesh; on a zero-polygon
coarse mesh processing continues and a mesh is still produced and returned. -/
theorem subdiv_to_mesh_eval_failure_fatal_iff_polys
    (eval_begin_ok : Bool) (coarse_totpoly : Nat) :
    (eval_begin_ok = false → 0 < coarse_totpoly →
      BKE_subdiv_to_mesh eval_begin_ok coarse_totpoly = none) ∧
    (eval_begin_ok = false → coarse_totpoly = 0 →
      BKE_subdiv_to_mesh eval_begin_ok coarse_totpoly =
        some subdiv_to_mesh_run_foreach) ∧
    (eval_begin_ok = true →
      BKE_subdiv_to_mesh eval_begin_ok coarse_totpoly =
        some subdiv_to_mesh_run_foreach) := by
  refine ⟨?_, ?_, ?_⟩ <;> intro h
  · intro hp
    simp [BKE_subdiv_to_mesh, h, Nat.pos_iff_ne_zero.mp hp]
  · intro hp
    simp [BKE_subdiv_to_mesh, h, hp]
  · simp [BKE_subdiv_to_mesh, h]

/-- Witness for C2: concrete instances of both failure-path behaviours. -/
theorem subdiv_to_mesh_eval_failure_fatal_iff_polys_witness :
    BKE_subdiv_to_mesh false 6 = none ∧
    BKE_subdiv_to_mesh false 0 = some subdiv_to_mesh_run_foreach :=
  ⟨(subdiv_to_mesh_eval_failure_fatal_iff_polys false 6).1 rfl (by decide),
   (subdiv_to_mesh_eval_failure_fatal_iff_polys false 0).2.1 rfl rfl⟩

/-! ## Displacement accumulation (C1)

`subdiv_accumulate_vertex_displacement` and the two
`evaluate_vertex_and_apply_displacement_*` helpers.  The displacement oracle
sample `D` at `(ptex_face_index, u, v)` is an arbitrary vector; the vertex
state is its position field (used as accumulator during the pre-pass) plus the
per-vertex entry of `ctx->accumulated_counters`.  The counters array is
allocated by `subdiv_mesh_prepare_accumulator` exactly when
`ctx->have_displacement` holds, hence the counter increment is guarded by that
flag. -/

/-- Per-output-vertex accumulation state: the vertex `co` field and the
vertex's `accumulated_counters` entry. -/
structure VertexAccumState where
  co : Vec3
  counter : Nat
deriving DecidableEq, Repr

/-- Model of `subdiv_accumulate_vertex_displacement`: evaluate derivatives and the
displacement sample `D` at `(ptex, u, v)`, add `D` into the vertex position
field, and increment the accumulation counter (present iff
`have_displacement`). -/
def subdiv_accumulate_vertex_displacement (have_displacement : Bool) (D : Vec3)
    (s : VertexAccumState) : VertexAccumState :=
  { co := add_v3_v3 s.co D
    counter := if have_displacement then s.counter + 1 else s.counter }

/-- Position part of `evaluate_vertex_and_apply_displacement_copy`: back up the
average `D = co * (1 / counter)`, copy coarse custom data, overwrite `co` with
the freshly evaluated limit point, then add `D` back. -/
def evaluate_vertex_and_apply_displacement_copy (have_displacement : Bool)
    (limit_P : Vec3) (s : VertexAccumState) : Vec3 :=
  let D := if have_displacement then mul_v3_fl s.co (1 / (s.counter : ℚ)) else Vec3.zero
  add_v3_v3 limit_P D

/-- Position part of `evaluate_vertex_and_apply_displacement_interpolate`:
identical displacement handling, with interpolated instead of copied custom
data. -/
def evaluate_vertex_and_apply_displacement_interpolate (have_displacement : Bool)
    (limit_P : Vec3) (s : VertexAccumState) : Vec3 :=
  let D := if have_displacement then mul_v3_fl s.co (1 / (s.counter : ℚ)) else Vec3.zero
  add_v3_v3 limit_P D

/-- The displacement pre-pass over one vertex: one accumulation step per
visiting ptex-face boundary evaluation, starting from the calloc'ed zero
vertex and zero counter. -/
def displacement_prepass (samples : List Vec3) : VertexAccumState :=
  samples.foldl (fun s d => subdiv_accumulate_vertex_displacement true d s)
    { co := Vec3.zero, counter := 0 }

theorem add_v3_v3_zero (a : Vec3) : add_v3_v3 a Vec3.zero = a := by
  simp [add_v3_v3, Vec3.zero]

theorem zero_add_v3_v3 (a : Vec3) : add_v3_v3 Vec3.zero a = a := by
  simp [add_v3_v3, Vec3.zero]

theorem add_v3_v3_assoc (a b c : Vec3) :
    add_v3_v3 (add_v3_v3 a b) c = add_v3_v3 a (add_v3_v3 b c) := by
  simp only [add_v3_v3, Vec3.mk.injEq]
  exact ⟨by ring, by ring, by ring⟩

theorem foldl_add_v3_v3 (l : List Vec3) :
    ∀ a : Vec3, l.foldl add_v3_v3 a = add_v3_v3 a (v3_sum l) := by
  induction l with
  | nil =>
    intro a
    simp [v3_sum, add_v3_v3_zero]
  | cons x xs ih =>
    intro a
    have hxs : v3_sum (x :: xs) = add_v3_v3 x (v3_sum xs) := by
      show List.foldl add_v3_v3 Vec3.zero (x :: xs) = _
      rw [List.foldl_cons, ih, zero_add_v3_v3]
    rw [List.foldl_cons, ih, hxs, add_v3_v3_assoc]

theorem v3_sum_cons (d : Vec3) (ds : List Vec3) :
    v3_sum (d :: ds) = add_v3_v3 d (v3_sum ds) := by
  show List.foldl add_v3_v3 Vec3.zero (d :: ds) = _
  rw [List.foldl_cons, foldl_add_v3_v3, zero_add_v3_v3]

theorem displacement_prepass_foldl (samples : List Vec3) (s : VertexAccumState) :
    samples.foldl (fun s d => subdiv_accumulate_vertex_displacement true d s) s =
      { co := add_v3_v3 s.co (v3_sum samples), counter := s.counter + samples.length } := by
  induction samples generalizing s with
  | nil => simp [v3_sum, add_v3_v3_zero]
  | cons d ds ih =>
    rw [List.foldl_cons, ih]
    simp only [subdiv_accumulate_vertex_displacement, v3_sum_cons, List.length_cons,
      reduceIte, VertexAccumState.mk.injEq]
    refine ⟨add_v3_v3_assoc _ _ _, by omega⟩

/-- C1: with a displacement function attached, the pre-pass adds one
displacement sample to the vertex position accumulator and bumps the counter
per visit, and both final boundary passes (corner copy and edge interpolate)
produce `limit position + (sum of N samples) / N` — the average, not the sum. -/
theorem subdiv_displacement_samples_are_averaged
    (limit_P : Vec3) (samples : List Vec3) (h : samples ≠ []) :
    (displacement_prepass samples).co = v3_sum samples ∧
    (displacement_prepass samples).counter = samples.length ∧
    evaluate_vertex_and_apply_displacement_copy true limit_P
        (displacement_prepass samples) =
      add_v3_v3 limit_P (mul_v3_fl (v3_sum samples) (1 / (samples.length : ℚ))) ∧
    evaluate_vertex_and_apply_displacement_interpolate true limit_P
        (displacement_prepass samples) =
      add_v3_v3 limit_P (mul_v3_fl (v3_sum samples) (1 / (samples.length : ℚ))) := by
  have hpre : displacement_prepass samples =
      { co := v3_sum samples, counter := samples.length } := by
    rw [displacement_prepass, displacement_prepass_foldl]
    simp [zero_add_v3_v3]
  refine ⟨by rw [hpre], by rw [hpre], ?_, ?_⟩ <;>
    simp [hpre, evaluate_vertex_and_apply_displacement_copy,
      evaluate_vertex_and_apply_displacement_interpolate]

/-- Witness for C1: two boundary visits with samples `(1,0,0)` and `(3,0,0)`
average to `(2,0,0)`, giving final position `(3,2,3)` over limit `(1,2,3)`. -/
theorem subdiv_displacement_samples_are_averaged_witness :
    ([⟨1, 0, 0⟩, ⟨3, 0, 0⟩] : List Vec3) ≠ [] ∧
    evaluate_vertex_and_apply_displacement_copy true ⟨1, 2, 3⟩
        (displacement_prepass [⟨1, 0, 0⟩, ⟨3, 0, 0⟩]) =
      add_v3_v3 ⟨1, 2, 3⟩
        (mul_v3_fl (v3_sum [⟨1, 0, 0⟩, ⟨3, 0, 0⟩])
          (1 / (([⟨1, 0, 0⟩, ⟨3, 0, 0⟩] : List Vec3).length : ℚ))) :=
  ⟨by decide,
   (subdiv_displacement_samples_are_averaged ⟨1, 2, 3⟩ [⟨1, 0, 0⟩, ⟨3, 0, 0⟩]
      (by decide)).2.2.1⟩

/-! ## Interpolation-cache re-entry discipline (C3)

`subdiv_mesh_ensure_vertex_interpolation` / `subdiv_mesh_ensure_loop_interpolation`.
The TLS tracks whether the cache is built and the `(coarse_poly, coarse_corner)`
key it was last built for (pointer identity of `coarse_poly` coincides with the
coarse polygon index).  The model returns, besides the updated key state, the
exact sequence of cache operations performed:
`endOp` = `vertex/loop_interpolation_end` (frees the owned scratch storage),
`initOp` = `vertex/loop_interpolation_init` (full re-initialization),
`fromCornerOp` = `vertex/loop_interpolation_from_corner` (per-corner update of
indices 1 and 3). -/

/-- One cache-maintenance operation performed by an ensure call. -/
inductive CacheOp where
  | endOp
  | initOp
  | fromCornerOp
deriving DecidableEq, Repr

/-- The TLS key state for one interpolation cache:
`vertex/loop_interpolation_initialized`, `..._coarse_poly` (as index) and
`..._coarse_corner`. -/
structure CacheKeyState where
  inited : Bool
  poly : Nat
  corner : Nat
deriving DecidableEq, Repr

/-- Model of `subdiv_mesh_ensure_vertex_interpolation`: tear down when the stored
`(poly, corner)` key differs, rebuild when torn down (or never built), run the
per-corner update when freshly built or the corner changed, then store the new
key. -/
def subdiv_mesh_ensure_vertex_interpolation (tls : CacheKeyState)
    (coarse_poly coarse_corner : Nat) : CacheKeyState × List CacheOp :=
  let step1 : CacheKeyState × List CacheOp :=
    if tls.inited then
      if tls.poly ≠ coarse_poly ∨ tls.corner ≠ coarse_corner then
        ({ tls with inited := false }, [CacheOp.endOp])
      else (tls, [])
    else (tls, [])
  let tls1 := step1.1
  let ops2 := if ¬ tls1.inited then step1.2 ++ [CacheOp.initOp] else step1.2
  let ops3 :=
    if ¬ tls1.inited ∨ tls1.corner ≠ coarse_corner then ops2 ++ [CacheOp.fromCornerOp]
    else ops2
  ({ inited := true, poly := coarse_poly, corner := coarse_corner }, ops3)

/-- Model of `subdiv_mesh_ensure_loop_interpolation`: identical logic over the loop
cache's independently tracked key. -/
def subdiv_mesh_ensure_loop_interpolation (tls : CacheKeyState)
    (coarse_poly coarse_corner : Nat) : CacheKeyState × List CacheOp :=
  let step1 : CacheKeyState × List CacheOp :=
    if tls.inited then
      if tls.poly ≠ coarse_poly ∨ tls.corner ≠ coarse_corner then
        ({ tls with inited := false }, [CacheOp.endOp])
      else (tls, [])
    else (tls, [])
  let tls1 := step1.1
  let ops2 := if ¬ tls1.inited then step1.2 ++ [CacheOp.initOp] else step1.2
  let ops3 :=
    if ¬ tls1.inited ∨ tls1.corner ≠ coarse_corner then ops2 ++ [CacheOp.fromCornerOp]
    else ops2
  ({ inited := true, poly := coarse_poly, corner := coarse_corner }, ops3)

/-- Counterexample for C3 as stated: with the vertex cache built for
`(poly 0, corner 0)`, re-entry with `(poly 0, corner 1)` — a changed corner on
the same polygon — does NOT perform only the per-corner partial update: the
teardown condition `poly != coarse_poly || corner != coarse_corner` fires, so
the cache is freed and fully re-initialized first. -/
theorem ensure_interpolation_corner_change_rebuilds :
    ¬ ((subdiv_mesh_ensure_vertex_interpolation ⟨true, 0, 0⟩ 0 1).2 =
        [CacheOp.fromCornerOp]) := by
  decide

/-- C3 amended: re-entry with the same `(polygon, corner)` pair is a no-op for
both caches; ANY change of key — polygon changed, or corner changed on the
same polygon — triggers teardown, full re-initialization and the per-corner
update; the new key is stored afterwards. -/
theorem ensure_interpolation_reentry_discipline
    (tls : CacheKeyState) (p c : Nat) (hinit : tls.inited = true) :
    ((tls.poly = p ∧ tls.corner = c) →
      subdiv_mesh_ensure_vertex_interpolation tls p c = (tls, []) ∧
      subdiv_mesh_ensure_loop_interpolation tls p c = (tls, [])) ∧
    ((tls.poly ≠ p ∨ tls.corner ≠ c) →
      subdiv_mesh_ensure_vertex_interpolation tls p c =
        (⟨true, p, c⟩, [CacheOp.endOp, CacheOp.initOp, CacheOp.fromCornerOp]) ∧
      subdiv_mesh_ensure_loop_interpolation tls p c =
        (⟨true, p, c⟩, [CacheOp.endOp, CacheOp.initOp, CacheOp.fromCornerOp])) := by
  constructor
  · rintro ⟨hp, hc⟩
    have htls : tls = ⟨true, p, c⟩ := by
      cases tls
      simp_all
    subst htls
    constructor <;>
      simp [subdiv_mesh_ensure_vertex_interpolation, subdiv_mesh_ensure_loop_interpolation]
  · intro hne
    constructor <;>
      · simp only [subdiv_mesh_ensure_vertex_interpolation,
          subdiv_mesh_ensure_loop_interpolation, hinit, if_pos hne, if_true]
        simp

/-- Witness for C3 amended: the no-op re-entry and the corner-change full
rebuild, at concrete keys. -/
theorem ensure_interpolation_reentry_discipline_witness :
    (subdiv_mesh_ensure_vertex_interpolation ⟨true, 5, 2⟩ 5 2 = (⟨true, 5, 2⟩, []) ∧
      subdiv_mesh_ensure_loop_interpolation ⟨true, 5, 2⟩ 5 2 = (⟨true, 5, 2⟩, [])) ∧
    (subdiv_mesh_ensure_vertex_interpolation ⟨true, 5, 2⟩ 5 3 =
        (⟨true, 5, 3⟩, [CacheOp.endOp, CacheOp.initOp, CacheOp.fromCornerOp]) ∧
      subdiv_mesh_ensure_loop_interpolation ⟨true, 5, 2⟩ 5 3 =
        (⟨true, 5, 3⟩, [CacheOp.endOp, CacheOp.initOp, CacheOp.fromCornerOp])) :=
  ⟨(ensure_interpolation_reentry_discipline ⟨true, 5, 2⟩ 5 2 rfl).1 ⟨rfl, rfl⟩,
   (ensure_interpolation_reentry_discipline ⟨true, 5, 2⟩ 5 3 rfl).2 (by decide)⟩

/-! ## Interpolation cache construction (C6)

`vertex_interpolation_init` / `loop_interpolation_init`.  The cache holds a
pointer to the custom data used as interpolation source (either the coarse
mesh's own per-domain data, or a 4-element owned scratch allocation), the
allocation flag, the 4 source indices, and — for the irregular branch — the
record of the centroid `CustomData_interp` performed into slot 2 (source
indices paired with their `1/K` weights). -/

/-- Which custom-data container the cache's indices point into. -/
inductive CDSource where
  | coarseData
  | ownStorage
deriving DecidableEq, Repr

/-- State of `VerticesForInterpolation` after `vertex_interpolation_init`. -/
structure VerticesForInterpolation where
  vertex_data : CDSource
  vertex_data_storage_allocated : Bool
  vertex_indices : List Nat
  centroid_blend : List (Nat × ℚ)
deriving DecidableEq, Repr

/-- State of `LoopsForInterpolation` after `loop_interpolation_init`. -/
structure LoopsForInterpolation where
  loop_data : CDSource
  loop_data_storage_allocated : Bool
  loop_indices : List Nat
  centroid_blend : List (Nat × ℚ)
deriving DecidableEq, Repr

/-- Model of `vertex_interpolation_init`: for a quad, point straight at the coarse
vertex data through the polygon's 4 loop vertex indices (no allocation); for
an irregular polygon, allocate 4-element scratch storage, use indices 0..3 and
interpolate the polygon centroid (weight `1/K` per coarse corner vertex) into
slot 2. -/
def vertex_interpolation_init (coarse_loops : List MLoop) (coarse_poly : MPoly) :
    VerticesForInterpolation :=
  if coarse_poly.totloop = 4 then
    { vertex_data := CDSource.coarseData
      vertex_data_storage_allocated := false
      vertex_indices :=
        [(coarse_loops.getD (coarse_poly.loopstart + 0) default).v,
         (coarse_loops.getD (coarse_poly.loopstart + 1) default).v,
         (coarse_loops.getD (coarse_poly.loopstart + 2) default).v,
         (coarse_loops.getD (coarse_poly.loopstart + 3) default).v]
      centroid_blend := [] }
  else
    { vertex_data := CDSource.ownStorage
      vertex_data_storage_allocated := true
      vertex_indices := [0, 1, 2, 3]
      centroid_blend :=
        (List.range coarse_poly.totloop).map fun i =>
          ((coarse_loops.getD (coarse_poly.loopstart + i) default).v,
            1 / (coarse_poly.totloop : ℚ)) }

/-- Model of `loop_interpolation_init`: same shape over loop indices — a quad points at
the coarse loop data through `loopstart + 0..3`. -/
def loop_interpolation_init (coarse_poly : MPoly) : LoopsForInterpolation :=
  if coarse_poly.totloop = 4 then
    { loop_data := CDSource.coarseData
      loop_data_storage_allocated := false
      loop_indices :=
        [coarse_poly.loopstart + 0, coarse_poly.loopstart + 1,
         coarse_poly.loopstart + 2, coarse_poly.loopstart + 3]
      centroid_blend := [] }
  else
    { loop_data := CDSource.ownStorage
      loop_data_storage_allocated := true
      loop_indices := [0, 1, 2, 3]
      centroid_blend :=
        (List.range coarse_poly.totloop).map fun i =>
          (coarse_poly.loopstart + i, 1 / (coarse_poly.totloop : ℚ)) }

/-- C6: for a quad (4-loop) coarse polygon both cache inits perform no scratch
allocation and no centroid interpolation, point at the coarse data, and set
the 4 indices to exactly the polygon's loops in loop order (the loops' vertex
indices for the vertex cache, the loop indices `loopstart + 0..3` for the loop
cache). -/
theorem quad_interpolation_cache_is_zero_copy
    (coarse_loops : List MLoop) (coarse_poly : MPoly)
    (h4 : coarse_poly.totloop = 4) :
    vertex_interpolation_init coarse_loops coarse_poly =
      { vertex_data := CDSource.coarseData
        vertex_data_storage_allocated := false
        vertex_indices :=
          [(coarse_loops.getD (coarse_poly.loopstart + 0) default).v,
           (coarse_loops.getD (coarse_poly.loopstart + 1) default).v,
           (coarse_loops.getD (coarse_poly.loopstart + 2) default).v,
           (coarse_loops.getD (coarse_poly.loopstart + 3) default).v]
        centroid_blend := [] } ∧
    loop_interpolation_init coarse_poly =
      { loop_data := CDSource.coarseData
        loop_data_storage_allocated := false
        loop_indices :=
          [coarse_poly.loopstart + 0, coarse_poly.loopstart + 1,
           coarse_poly.loopstart + 2, coarse_poly.loopstart + 3]
        centroid_blend := [] } := by
  constructor <;> simp [vertex_interpolation_init, loop_interpolation_init, h4]

/-- Witness for C6: a concrete quad polygon over a 6-loop coarse mesh. -/
theorem quad_interpolation_cache_is_zero_copy_witness :
    (⟨2, 4⟩ : MPoly).totloop = 4 ∧
    vertex_interpolation_init
        [⟨9, 0⟩, ⟨8, 0⟩, ⟨7, 0⟩, ⟨6, 0⟩, ⟨5, 0⟩, ⟨4, 0⟩] (⟨2, 4⟩ : MPoly) =
      { vertex_data := CDSource.coarseData
        vertex_data_storage_allocated := false
        vertex_indices := [7, 6, 5, 4]
        centroid_blend := [] } := by
  refine ⟨rfl, ?_⟩
  have h := (quad_interpolation_cache_is_zero_copy
    [⟨9, 0⟩, ⟨8, 0⟩, ⟨7, 0⟩, ⟨6, 0⟩, ⟨5, 0⟩, ⟨4, 0⟩] ⟨2, 4⟩ rfl).1
  rw [h]
  decide

/-! ## Topology-info callback (C7)

`subdiv_mesh_topology_info` plus `subdiv_mesh_prepare_accumulator`.  Custom
data masks are per-domain bit sets (`CustomData_MeshMasks`); `mask &= ~bits`
is `Nat.ldiff`.  The allocated output is modelled as the record of everything
the callback produces: its boolean return, the template-mesh element counts
and mask, the accumulation-counter array and the face-dot bitmap. -/

/-- Model of `CustomData_MeshMasks`: per-domain custom-data layer bit masks. -/
structure CustomData_MeshMasks where
  vmask : Nat
  emask : Nat
  lmask : Nat
  pmask : Nat
deriving DecidableEq, Repr

/-- Model of `subdiv_mesh_prepare_accumulator`: allocate the zeroed per-vertex counter
array only when the evaluator has a displacement function attached. -/
def subdiv_mesh_prepare_accumulator (have_displacement : Bool)
    (num_vertices : Nat) : Option (List Nat) :=
  if ¬ have_displacement then none
  else some (List.replicate num_vertices 0)

/-- Everything `subdiv_mesh_topology_info` produces. -/
structure SubdivMeshTopologyOutput where
  returned : Bool
  num_vertices : Nat
  num_edges : Nat
  num_loops : Nat
  num_polygons : Nat
  mask : CustomData_MeshMasks
  accumulated_counters : Option (List Nat)
  subsurf_face_dot_tags : List Bool
deriving DecidableEq, Repr

/-- Model of `subdiv_mesh_topology_info`: start from `CD_MASK_EVERYTHING`, strip
multires-grid layers from the loop domain and crease from the vertex and edge
domains, allocate the template mesh with the given counts, prepare the
displacement accumulator, and allocate the zeroed face-dot bitmap. -/
def subdiv_mesh_topology_info (CD_MASK_EVERYTHING : CustomData_MeshMasks)
    (CD_MASK_MULTIRES_GRIDS CD_MASK_CREASE : Nat) (have_displacement : Bool)
    (num_vertices num_edges num_loops num_polygons : Nat) :
    SubdivMeshTopologyOutput :=
  let mask : CustomData_MeshMasks :=
    { CD_MASK_EVERYTHING with
      lmask := Nat.ldiff CD_MASK_EVERYTHING.lmask CD_MASK_MULTIRES_GRIDS
      vmask := Nat.ldiff CD_MASK_EVERYTHING.vmask CD_MASK_CREASE
      emask := Nat.ldiff CD_MASK_EVERYTHING.emask CD_MASK_CREASE }
  { returned := true
    num_vertices := num_vertices
    num_edges := num_edges
    num_loops := num_loops
    num_polygons := num_polygons
    mask := mask
    accumulated_counters := subdiv_mesh_prepare_accumulator have_displacement num_vertices
    subsurf_face_dot_tags := List.replicate num_vertices false }

/-- C7: the topology callback always succeeds; the output mesh gets the given
element counts; the mask keeps every bit of `CD_MASK_EVERYTHING` except the
multires-grid bits on the loop domain and the crease bits on the vertex and
edge domains (polygon mask untouched); the zeroed counter array of length
`num_vertices` exists iff a displacement function is attached; the face-dot
bitmap is `num_vertices` zeroed bits. -/
theorem topology_info_output_shape (everything : CustomData_MeshMasks)
    (grids crease : Nat) (have_displacement : Bool) (nv ne nl np : Nat) :
    (subdiv_mesh_topology_info everything grids crease have_displacement
        nv ne nl np).returned = true ∧
    (subdiv_mesh_topology_info everything grids crease have_displacement
        nv ne nl np).num_vertices = nv ∧
    (subdiv_mesh_topology_info everything grids crease have_displacement
        nv ne nl np).num_edges = ne ∧
    (subdiv_mesh_topology_info everything grids crease have_displacement
        nv ne nl np).num_loops = nl ∧
    (subdiv_mesh_topology_info everything grids crease have_displacement
        nv ne nl np).num_polygons = np ∧
    (∀ i, ((subdiv_mesh_topology_info everything grids crease have_displacement
        nv ne nl np).mask.lmask).testBit i =
      (everything.lmask.testBit i && !grids.testBit i)) ∧
    (∀ i, ((subdiv_mesh_topology_info everything grids crease have_displacement
        nv ne nl np).mask.vmask).testBit i =
      (everything.vmask.testBit i && !crease.testBit i)) ∧
    (∀ i, ((subdiv_mesh_topology_info everything grids crease have_displacement
        nv ne nl np).mask.emask).testBit i =
      (everything.emask.testBit i && !crease.testBit i)) ∧
    (subdiv_mesh_topology_info everything grids crease have_displacement
        nv ne nl np).mask.pmask = everything.pmask ∧
    ((subdiv_mesh_topology_info everything grids crease have_displacement
        nv ne nl np).accumulated_counters =
      if have_displacement then some (List.replicate nv 0) else none) ∧
    (subdiv_mesh_topology_info everything grids crease have_displacement
        nv ne nl np).subsurf_face_dot_tags = List.replicate nv false := by
  refine ⟨rfl, rfl, rfl, rfl, rfl, ?_, ?_, ?_, rfl, ?_, rfl⟩
  · intro i
    simp [subdiv_mesh_topology_info, Nat.testBit_ldiff]
  · intro i
    simp [subdiv_mesh_topology_info, Nat.testBit_ldiff]
  · intro i
    simp [subdiv_mesh_topology_info, Nat.testBit_ldiff]
  · cases have_displacement <;>
      simp [subdiv_mesh_topology_info, subdiv_mesh_prepare_accumulator]

/-! ## Edge callback (C8)

`subdiv_copy_edge_data` / `subdiv_mesh_edge`.  An output edge records the flag
word, the two endpoint vertex indices supplied by the driver, which coarse
edge (if any) its custom data was copied from, and the value written into the
`CD_ORIGINDEX` layer entry when that layer exists. -/

/-- Model of `ME_EDGERENDER` (`DNA_meshdata_types.h`): bit 5 of `MEdge.flag`. -/
def ME_EDGERENDER : Nat := 32

/-- Model of `ORIGINDEX_NONE`: the "no corresponding coarse element" sentinel. -/
def ORIGINDEX_NONE : Int := -1

/-- The observable result of the edge callback for one output edge. -/
structure SubdivEdgeResult where
  flag : Nat
  v1 : Nat
  v2 : Nat
  custom_data_copied_from : Option Nat
  origindex_written : Option Int
deriving DecidableEq, Repr

/-- Model of `subdiv_copy_edge_data`: with no coarse source, clear the flags, set
`ME_EDGERENDER` unless optimal display suppresses it, and store
`ORIGINDEX_NONE` (when the layer exists); with a coarse source, copy the
coarse edge's custom data (its flag word included, `MEdge` being edge custom
data) and then set `ME_EDGERENDER` unconditionally. -/
def subdiv_copy_edge_data (use_optimal_display has_origindex_layer : Bool)
    (coarse : Option (Nat × MEdge)) : SubdivEdgeResult :=
  match coarse with
  | none =>
    let flag0 : Nat := 0
    let flag1 : Nat := if ¬ use_optimal_display then Nat.lor flag0 ME_EDGERENDER else flag0
    { flag := flag1
      v1 := 0
      v2 := 0
      custom_data_copied_from := none
      origindex_written := if has_origindex_layer then some ORIGINDEX_NONE else none }
  | some (coarse_edge_index, coarse_edge) =>
    { flag := Nat.lor coarse_edge.flag ME_EDGERENDER
      v1 := 0
      v2 := 0
      custom_data_copied_from := some coarse_edge_index
      origindex_written := none }

/-- Model of `subdiv_mesh_edge`: resolve the coarse edge from the driver-supplied index
(`ORIGINDEX_NONE` meaning synthesized), copy the edge data, then assign the
two endpoint vertex indices supplied by the driver. -/
def subdiv_mesh_edge (use_optimal_display has_origindex_layer : Bool)
    (coarse_edges : List MEdge) (coarse_edge_index : Int)
    (subdiv_v1 subdiv_v2 : Nat) : SubdivEdgeResult :=
  let coarse : Option (Nat × MEdge) :=
    if coarse_edge_index ≠ ORIGINDEX_NONE then
      some (coarse_edge_index.toNat, coarse_edges.getD coarse_edge_index.toNat default)
    else none
  let e := subdiv_copy_edge_data use_optimal_display has_origindex_layer coarse
  { e with v1 := subdiv_v1, v2 := subdiv_v2 }

/-- C8: with a coarse source the output edge copies that edge's custom data
and has `ME_EDGERENDER` set whatever the optimal-display setting is; without a
coarse source the flags are cleared to zero except `ME_EDGERENDER` granted
exactly when optimal display does not suppress it, and the origin index is the
none sentinel; in both cases the driver-supplied endpoint indices are
assigned. -/
theorem subdiv_edge_flags_and_origin (use_optimal_display has_origindex_layer : Bool)
    (coarse_edges : List MEdge) (coarse_edge_index : Int) (sv1 sv2 : Nat) :
    ((subdiv_mesh_edge use_optimal_display has_origindex_layer coarse_edges
        coarse_edge_index sv1 sv2).v1 = sv1 ∧
      (subdiv_mesh_edge use_optimal_display has_origindex_layer coarse_edges
        coarse_edge_index sv1 sv2).v2 = sv2) ∧
    (coarse_edge_index ≠ ORIGINDEX_NONE →
      (subdiv_mesh_edge use_optimal_display has_origindex_layer coarse_edges
          coarse_edge_index sv1 sv2).custom_data_copied_from =
        some coarse_edge_index.toNat ∧
      (subdiv_mesh_edge use_optimal_display has_origindex_layer coarse_edges
          coarse_edge_index sv1 sv2).flag =
        Nat.lor (coarse_edges.getD coarse_edge_index.toNat default).flag ME_EDGERENDER ∧
      ((subdiv_mesh_edge use_optimal_display has_origindex_layer coarse_edges
          coarse_edge_index sv1 sv2).flag).testBit 5 = true) ∧
    (coarse_edge_index = ORIGINDEX_NONE →
      (subdiv_mesh_edge use_optimal_display has_origindex_layer coarse_edges
          coarse_edge_index sv1 sv2).custom_data_copied_from = none ∧
      (subdiv_mesh_edge use_optimal_display has_origindex_layer coarse_edges
          coarse_edge_index sv1 sv2).flag =
        (if use_optimal_display then 0 else ME_EDGERENDER) ∧
      (subdiv_mesh_edge use_optimal_display has_origindex_layer coarse_edges
          coarse_edge_index sv1 sv2).origindex_written =
        (if has_origindex_layer then some ORIGINDEX_NONE else none)) := by
  have h32 : ∀ x : Nat, (Nat.lor x 32).testBit 5 = true := by
    intro x
    have hor : Nat.lor x 32 = x ||| 32 := rfl
    rw [hor, Nat.testBit_lor]
    simp [show Nat.testBit 32 5 = true from rfl]
  refine ⟨⟨rfl, rfl⟩, ?_, ?_⟩
  · intro hne
    refine ⟨?_, ?_, ?_⟩
    · simp [subdiv_mesh_edge, subdiv_copy_edge_data, if_pos hne]
    · simp [subdiv_mesh_edge, subdiv_copy_edge_data, if_pos hne]
    · simp [subdiv_mesh_edge, subdiv_copy_edge_data, if_pos hne,
        ME_EDGERENDER, h32]
  · intro heq
    refine ⟨?_, ?_, ?_⟩ <;>
      · simp only [subdiv_mesh_edge, subdiv_copy_edge_data, heq]
        cases use_optimal_display <;> cases has_origindex_layer <;>
          simp [ME_EDGERENDER] <;> decide

/-- Witness for C8: a coarse-sourced edge under optimal display (renderable
flag still set), and a synthesized edge with optimal display off. -/
theorem subdiv_edge_flags_and_origin_witness :
    ((subdiv_mesh_edge true true [⟨0, 1, 2⟩] 0 7 8).custom_data_copied_from = some 0 ∧
      (subdiv_mesh_edge true true [⟨0, 1, 2⟩] 0 7 8).flag = Nat.lor 2 ME_EDGERENDER ∧
      ((subdiv_mesh_edge true true [⟨0, 1, 2⟩] 0 7 8).flag).testBit 5 = true) ∧
    ((subdiv_mesh_edge false true [⟨0, 1, 2⟩] ORIGINDEX_NONE 7 8).custom_data_copied_from
        = none ∧
      (subdiv_mesh_edge false true [⟨0, 1, 2⟩] ORIGINDEX_NONE 7 8).flag = ME_EDGERENDER ∧
      (subdiv_mesh_edge false true [⟨0, 1, 2⟩] ORIGINDEX_NONE 7 8).origindex_written =
        some ORIGINDEX_NONE) := by
  constructor
  · have h := (subdiv_edge_flags_and_origin true true [⟨0, 1, 2⟩] 0 7 8).2.1 (by decide)
    simpa using h
  · have h := (subdiv_edge_flags_and_origin false true [⟨0, 1, 2⟩] ORIGINDEX_NONE 7 8).2.2 rfl
    simpa using h

/-! ## Orco evaluation helper (C10)

`subdiv_vertex_orco_evaluate`.  `BKE_subdiv_eval_vertex_data` packs up to two
vectors into `vertex_data[6]` (orco first, cloth-orco second); the helper then
copies into the cached layer pointers.  The model records the sequence of
array writes the helper performs: which destination pointer and which packed
vector. -/

/-- Destination array pointer of one `copy_v3_v3` write in the helper. -/
inductive OrcoWriteTarget where
  | orcoArray
  | clothOrcoArray
deriving DecidableEq, Repr

/-- Model of `subdiv_vertex_orco_evaluate`: the exact write sequence performed for one
subdivided vertex, given which of the two layers exist and the evaluator's two
packed vectors (`vertex_data` and `vertex_data + 3`). -/
def subdiv_vertex_orco_evaluate (has_orco has_cloth_orco : Bool)
    (vertex_data : Vec3 × Vec3) : List (OrcoWriteTarget × Vec3) :=
  if has_orco ∨ has_cloth_orco then
    if has_orco then
      (OrcoWriteTarget.orcoArray, vertex_data.1) ::
        (if has_cloth_orco then [(OrcoWriteTarget.orcoArray, vertex_data.2)] else [])
    else if has_cloth_orco then
      [(OrcoWriteTarget.orcoArray, vertex_data.1)]
    else []
  else []

/-- C10: the helper never writes through the cloth-orco pointer; with both
layers present it writes the first packed vector then overwrites the same orco
entry with the second (cloth-orco) packed vector; with only the cloth-orco
layer present the single write still goes through the orco pointer. -/
theorem orco_evaluate_write_targets (has_orco has_cloth_orco : Bool)
    (vertex_data : Vec3 × Vec3) :
    (∀ w ∈ subdiv_vertex_orco_evaluate has_orco has_cloth_orco vertex_data,
      w.1 = OrcoWriteTarget.orcoArray) ∧
    (has_orco = true → has_cloth_orco = true →
      subdiv_vertex_orco_evaluate has_orco has_cloth_orco vertex_data =
        [(OrcoWriteTarget.orcoArray, vertex_data.1),
         (OrcoWriteTarget.orcoArray, vertex_data.2)]) ∧
    (has_orco = false → has_cloth_orco = true →
      subdiv_vertex_orco_evaluate has_orco has_cloth_orco vertex_data =
        [(OrcoWriteTarget.orcoArray, vertex_data.1)]) := by
  refine ⟨?_, ?_, ?_⟩
  · intro w hw
    cases has_orco <;> cases has_cloth_orco <;>
      simp_all [subdiv_vertex_orco_evaluate] <;>
      rcases hw with rfl | rfl <;> rfl
  · intro h1 h2
    simp [subdiv_vertex_orco_evaluate, h1, h2]
  · intro h1 h2
    simp [subdiv_vertex_orco_evaluate, h1, h2]

/-- Witness for C10: concrete packed vectors in the both-layers and
cloth-only configurations. -/
theorem orco_evaluate_write_targets_witness :
    subdiv_vertex_orco_evaluate true true (⟨1, 2, 3⟩, ⟨4, 5, 6⟩) =
      [(OrcoWriteTarget.orcoArray, ⟨1, 2, 3⟩),
       (OrcoWriteTarget.orcoArray, ⟨4, 5, 6⟩)] ∧
    subdiv_vertex_orco_evaluate false true (⟨1, 2, 3⟩, ⟨4, 5, 6⟩) =
      [(OrcoWriteTarget.orcoArray, ⟨1, 2, 3⟩)] :=
  ⟨(orco_evaluate_write_targets true true (⟨1, 2, 3⟩, ⟨4, 5, 6⟩)).2.1 rfl rfl,
   (orco_evaluate_write_targets false true (⟨1, 2, 3⟩, ⟨4, 5, 6⟩)).2.2 rfl rfl⟩

/-! ## Tangent-space computation error handling (C9)

`BKE_mesh_calc_loop_tangent_single_ex` / `BKE_mesh_calc_loop_tangent_single`
from `mesh_tangent.cc`.  The mikktspace solver is the external oracle; tangent
output is written only through its `SetTangentSpace` callback, i.e. only when
`genTangSpace` runs.  Custom-data layer lookup is modelled over a list of
typed, named layers. -/

/-- One custom-data layer: type code and name. -/
structure CDLayer where
  ctype : Nat
  label : String
deriving DecidableEq, Repr

/-- Model of `CD_NORMAL` type code. -/
def CD_NORMAL : Nat := 8

/-- Model of `CD_MLOOPUV` type code. -/
def CD_MLOOPUV : Nat := 16

/-- Model of `CustomData_get_layer(data, type)`: first layer of the given type. -/
def CustomData_get_layer (layers : List CDLayer) (ctype : Nat) : Option CDLayer :=
  layers.find? fun l => l.ctype = ctype

/-- Model of `CustomData_get_layer_named(data, type, name)`: first layer of the given
type with the given name. -/
def CustomData_get_layer_named (layers : List CDLayer) (ctype : Nat)
    (name : String) : Option CDLayer :=
  layers.find? fun l => l.ctype = ctype ∧ l.label = name

/-- Observable outcome of one tangent computation call. -/
structure TangentCallResult where
  reported_error : Bool
  solver_invoked : Bool
  tangents_written : Bool
deriving DecidableEq, Repr

/-- Model of `BKE_mesh_calc_loop_tangent_single_ex`: reject any polygon with more than
4 corners (report, return before `genTangSpace`); otherwise run the solver,
which writes the per-loop tangent output. -/
def BKE_mesh_calc_loop_tangent_single_ex (mpolys : List MPoly) : TangentCallResult :=
  if mpolys.any fun p => 4 < p.totloop then
    { reported_error := true, solver_invoked := false, tangents_written := false }
  else
    { reported_error := false, solver_invoked := true, tangents_written := true }

/-- Model of `BKE_mesh_calc_loop_tangent_single`: resolve the UV layer (named when a
name is given, else the first UV layer) and the loop-normal layer; report and
abort when either is missing; otherwise delegate. -/
def BKE_mesh_calc_loop_tangent_single (ldata : List CDLayer) (mpolys : List MPoly)
    (uvmap : Option String) : TangentCallResult :=
  let loopuvs :=
    match uvmap with
    | some name => CustomData_get_layer_named ldata CD_MLOOPUV name
    | none => CustomData_get_layer ldata CD_MLOOPUV
  if loopuvs = none then
    { reported_error := true, solver_invoked := false, tangents_written := false }
  else if CustomData_get_layer ldata CD_NORMAL = none then
    { reported_error := true, solver_invoked := false, tangents_written := false }
  else BKE_mesh_calc_loop_tangent_single_ex mpolys

/-- C9: a polygon with more than 4 corners makes the single-layer tangent
computation report an error and return without invoking the solver and
without writing tangent output; a UV map that cannot be resolved, or missing
loop normals, likewise report and abort that computation with nothing
written. -/
theorem tangent_single_error_paths (ldata : List CDLayer) (mpolys : List MPoly)
    (uvmap : Option String) :
    ((∃ p ∈ mpolys, 4 < p.totloop) →
      BKE_mesh_calc_loop_tangent_single_ex mpolys =
        { reported_error := true, solver_invoked := false, tangents_written := false }) ∧
    ((match uvmap with
      | some name => CustomData_get_layer_named ldata CD_MLOOPUV name
      | none => CustomData_get_layer ldata CD_MLOOPUV) = none →
      BKE_mesh_calc_loop_tangent_single ldata mpolys uvmap =
        { reported_error := true, solver_invoked := false, tangents_written := false }) ∧
    (CustomData_get_layer ldata CD_NORMAL = none →
      BKE_mesh_calc_loop_tangent_single ldata mpolys uvmap =
        { reported_error := true, solver_invoked := false, tangents_written := false }) := by
  refine ⟨?_, ?_, ?_⟩
  · intro hbig
    have hany : (mpolys.any fun p => 4 < p.totloop) = true := by
      rw [List.any_eq_true]
      obtain ⟨p, hp, h4⟩ := hbig
      exact ⟨p, hp, by simpa using h4⟩
    simp [BKE_mesh_calc_loop_tangent_single_ex, hany]
  · intro huv
    simp [BKE_mesh_calc_loop_tangent_single, huv]
  · intro hnor
    simp only [BKE_mesh_calc_loop_tangent_single, hnor]
    cases huv : (match uvmap with
      | some name => CustomData_get_layer_named ldata CD_MLOOPUV name
      | none => CustomData_get_layer ldata CD_MLOOPUV) with
    | none => simp
    | some l => simp [huv]

/-- Witness for C9: an n-gon mesh rejected by the topology check; a missing
named UV map; a UV layer present but loop normals absent. -/
theorem tangent_single_error_paths_witness :
    BKE_mesh_calc_loop_tangent_single_ex [⟨0, 5⟩] =
      { reported_error := true, solver_invoked := false, tangents_written := false } ∧
    BKE_mesh_calc_loop_tangent_single [] [⟨0, 4⟩] (some "uvmap") =
      { reported_error := true, solver_invoked := false, tangents_written := false } ∧
    BKE_mesh_calc_loop_tangent_single [⟨16, "uvmap"⟩] [⟨0, 4⟩] (some "uvmap") =
      { reported_error := true, solver_invoked := false, tangents_written := false } :=
  ⟨(tangent_single_error_paths [] [⟨0, 5⟩] none).1 ⟨⟨0, 5⟩, by decide, by decide⟩,
   (tangent_single_error_paths [] [⟨0, 4⟩] (some "uvmap")).2.1 (by decide),
   (tangent_single_error_paths [⟨16, "uvmap"⟩] [⟨0, 4⟩] (some "uvmap")).2.2 (by decide)⟩

/-! ## Loose-edge boundary interpolation (C4, C5)

`find_edge_neighbors`, `points_for_loose_edges_interpolation_get` and
`BKE_subdiv_mesh_interpolate_position_on_edge`.  The vertex-to-edge adjacency
map and the B-spline basis live outside the excerpted sources and are
modelled from the spec.  Coarse edges are addressed by index; an edge
"touches" a vertex when the vertex is one of its two endpoints. -/

/-- Modelled from the spec: `BKE_mesh_vert_edge_map_create` (§4.3, code not
under src/) — "Maps each coarse vertex to the set of coarse edge indices
touching it", listed in ascending edge-index order. -/
def vert_to_edge_map (coarse_edges : List MEdge) (v : Nat) : List Nat :=
  (List.range coarse_edges.length).filter fun i =>
    (coarse_edges.getD i default).v1 = v ∨ (coarse_edges.getD i default).v2 = v

/-- Accumulator of one `find_edge_neighbors` scan: the last neighbor pointer
written and the neighbor counter. -/
structure NeighborScan where
  neighbor : Option Nat
  count : Nat
deriving DecidableEq, Repr

/-- Body of one iteration of the scan loops inside `find_edge_neighbors`:
skip the edge itself, and for any other edge touching the vertex (`ELEM`
test) record it and bump the counter. -/
def find_neighbor_scan_step (coarse_edges : List MEdge) (edge_index v : Nat)
    (acc : NeighborScan) (i : Nat) : NeighborScan :=
  if i = edge_index then acc
  else if v = (coarse_edges.getD i default).v1 ∨ v = (coarse_edges.getD i default).v2 then
    { neighbor := some i, count := acc.count + 1 }
  else acc

/-- One vertex's scan loop inside `find_edge_neighbors`: walk the vertex's
adjacency entries, skip the edge itself, and for every other edge touching
the vertex record it and bump the counter. -/
def find_neighbor_scan (coarse_edges : List MEdge) (edge_index v : Nat)
    (entries : List Nat) : NeighborScan :=
  entries.foldl (find_neighbor_scan_step coarse_edges edge_index v)
    { neighbor := none, count := 0 }

/-- Model of `find_edge_neighbors`: neighbor edge of each endpoint of the given edge,
nulled out when the endpoint has more than one other touching edge (such
vertices count as infinitely sharp). -/
def find_edge_neighbors (coarse_edges : List MEdge) (vmap : Nat → List Nat)
    (edge_index : Nat) : Option Nat × Option Nat :=
  let edge := coarse_edges.getD edge_index default
  let scan0 := find_neighbor_scan coarse_edges edge_index edge.v1 (vmap edge.v1)
  let scan1 := find_neighbor_scan coarse_edges edge_index edge.v2 (vmap edge.v2)
  (if 1 < scan0.count then none else scan0.neighbor,
   if 1 < scan1.count then none else scan1.neighbor)

/-- Model of `points_for_loose_edges_interpolation_get`: middle control points are the
edge's own endpoints; each outer point is the neighboring vertex across the
endpoint's neighbor edge when one exists, else the linear extrapolation
through the edge. -/
def points_for_loose_edges_interpolation_get (coarse_mvert : List MVert)
    (coarse_edges : List MEdge) (coarse_edge : MEdge)
    (neighbors : Option Nat × Option Nat) : Vec3 × Vec3 × Vec3 × Vec3 :=
  let p1 := (coarse_mvert.getD coarse_edge.v1 default).co
  let p2 := (coarse_mvert.getD coarse_edge.v2 default).co
  let p0 :=
    match neighbors.1 with
    | some ni =>
      let n := coarse_edges.getD ni default
      if n.v1 = coarse_edge.v1 then (coarse_mvert.getD n.v2 default).co
      else (coarse_mvert.getD n.v1 default).co
    | none => add_v3_v3 (sub_v3_v3v3 p1 p2) p1
  let p3 :=
    match neighbors.2 with
    | some ni =>
      let n := coarse_edges.getD ni default
      if n.v1 = coarse_edge.v2 then (coarse_mvert.getD n.v2 default).co
      else (coarse_mvert.getD n.v1 default).co
    | none => add_v3_v3 (sub_v3_v3v3 p2 p1) p2
  (p0, p1, p2, p3)

/-- Modelled from the spec: `key_curve_position_weights(u, w, KEY_BSPLINE)`
(code not under src/) — "Evaluate the B-spline basis at parameter u": the
uniform cubic B-spline basis over 4 control points. -/
def key_curve_position_weights (t : ℚ) : ℚ × ℚ × ℚ × ℚ :=
  ((-1 / 6) * t ^ 3 + (1 / 2) * t ^ 2 - (1 / 2) * t + 1 / 6,
   (1 / 2) * t ^ 3 - t ^ 2 + 2 / 3,
   (-1 / 2) * t ^ 3 + (1 / 2) * t ^ 2 + (1 / 2) * t + 1 / 6,
   (1 / 6) * t ^ 3)

/-- Model of `BKE_subdiv_mesh_interpolate_position_on_edge`: simple scheme = linear
interpolation of the edge endpoints by `u`; otherwise the 4-point B-spline
blend over the loose-edge control polygon. -/
def BKE_subdiv_mesh_interpolate_position_on_edge (coarse_verts : List MVert)
    (coarse_edges : List MEdge) (vmap : Nat → List Nat) (coarse_edge_index : Nat)
    (is_simple : Bool) (u : ℚ) : Vec3 :=
  let coarse_edge := coarse_edges.getD coarse_edge_index default
  if is_simple then
    interp_v3_v3v3 (coarse_verts.getD coarse_edge.v1 default).co
      (coarse_verts.getD coarse_edge.v2 default).co u
  else
    let neighbors := find_edge_neighbors coarse_edges vmap coarse_edge_index
    let points :=
      points_for_loose_edges_interpolation_get coarse_verts coarse_edges
        coarse_edge neighbors
    interp_v3_v3v3v3v3 points.1 points.2.1 points.2.2.1 points.2.2.2
      (key_curve_position_weights u)

/-- Spec-side view of one endpoint's adjacency: the coarse edges other than
the edge itself that touch vertex `v` through the vertex-to-edge map. -/
def spec_other_edges_at_vertex (coarse_edges : List MEdge) (edge_index v : Nat) :
    List Nat :=
  (vert_to_edge_map coarse_edges v).filter fun i => i ≠ edge_index

theorem find_neighbor_scan_step_foldl (coarse_edges : List MEdge) (ei v : Nat)
    (entries : List Nat) :
    ∀ acc : NeighborScan,
      (∀ i ∈ entries,
        (coarse_edges.getD i default).v1 = v ∨ (coarse_edges.getD i default).v2 = v) →
      entries.foldl (find_neighbor_scan_step coarse_edges ei v) acc =
        { neighbor := (entries.filter fun i => i ≠ ei).foldl (fun _ i => some i) acc.neighbor
          count := acc.count + (entries.filter fun i => i ≠ ei).length } := by
  induction entries with
  | nil => intro acc _; simp
  | cons j rest ih =>
    intro acc htouch
    have hrest := fun i hi => htouch i (List.mem_cons_of_mem _ hi)
    by_cases hj : j = ei
    · rw [List.foldl_cons, find_neighbor_scan_step, if_pos hj, ih acc hrest]
      simp [List.filter_cons, hj]
    · have hcond : v = (coarse_edges.getD j default).v1 ∨
          v = (coarse_edges.getD j default).v2 := by
        rcases htouch j (List.mem_cons_self _ _) with h | h
        · exact Or.inl h.symm
        · exact Or.inr h.symm
      rw [List.foldl_cons, find_neighbor_scan_step, if_neg hj, if_pos hcond, ih _ hrest]
      have hfil : ((j :: rest).filter fun i => i ≠ ei) =
          j :: (rest.filter fun i => i ≠ ei) := by
        simp [List.filter_cons, hj]
      rw [hfil]
      simp only [List.foldl_cons, List.length_cons, NeighborScan.mk.injEq]
      exact ⟨by trivial, by omega⟩

theorem find_neighbor_scan_characterization (coarse_edges : List MEdge) (ei v : Nat) :
    (if 1 < (find_neighbor_scan coarse_edges ei v (vert_to_edge_map coarse_edges v)).count
      then none
      else (find_neighbor_scan coarse_edges ei v (vert_to_edge_map coarse_edges v)).neighbor) =
    (match spec_other_edges_at_vertex coarse_edges ei v with
     | [i] => some i
     | _ => none) := by
  have htouch : ∀ i ∈ vert_to_edge_map coarse_edges v,
      (coarse_edges.getD i default).v1 = v ∨ (coarse_edges.getD i default).v2 = v := by
    intro i hi
    have hmem := List.mem_filter.mp hi
    exact of_decide_eq_true hmem.2
  rw [find_neighbor_scan, find_neighbor_scan_step_foldl coarse_edges ei v _ _ htouch]
  have hFdef : ((vert_to_edge_map coarse_edges v).filter fun i => i ≠ ei) =
      spec_other_edges_at_vertex coarse_edges ei v := rfl
  rw [hFdef]
  rcases hF : spec_other_edges_at_vertex coarse_edges ei v with _ | ⟨a, _ | ⟨b, r⟩⟩
  · simp
  · simp
  · have hlen : 1 < 0 + ((a :: b :: r) : List Nat).length := by
      simp only [List.length_cons, Nat.zero_add]
      omega
    show (if 1 < 0 + ((a :: b :: r) : List Nat).length then (none : Option Nat)
        else List.foldl (fun _ i => some i) (none : Option Nat) (a :: b :: r)) =
      match a :: b :: r with
      | [i] => some i
      | _ => none
    rw [if_pos hlen]

theorem find_edge_neighbors_eq_spec (coarse_edges : List MEdge) (ei : Nat) :
    find_edge_neighbors coarse_edges (vert_to_edge_map coarse_edges) ei =
      ((match spec_other_edges_at_vertex coarse_edges ei
            (coarse_edges.getD ei default).v1 with
        | [i] => some i
        | _ => none),
       (match spec_other_edges_at_vertex coarse_edges ei
            (coarse_edges.getD ei default).v2 with
        | [i] => some i
        | _ => none)) := by
  have h1 := find_neighbor_scan_characterization coarse_edges ei
    (coarse_edges.getD ei default).v1
  have h2 := find_neighbor_scan_characterization coarse_edges ei
    (coarse_edges.getD ei default).v2
  simp only [find_edge_neighbors]
  rw [h1, h2]

/-- The spec's outer B-spline control point at one endpoint: the neighboring
vertex across the endpoint's unique other touching edge when exactly one such
edge exists, else the linear extrapolation `pnear + (pnear - pfar)`. -/
def spec_outer_control_point (coarse_verts : List MVert) (coarse_edges : List MEdge)
    (edge_index v : Nat) (pnear pfar : Vec3) : Vec3 :=
  match spec_other_edges_at_vertex coarse_edges edge_index v with
  | [i] =>
    let n := coarse_edges.getD i default
    if n.v1 = v then (coarse_verts.getD n.v2 default).co
    else (coarse_verts.getD n.v1 default).co
  | _ => add_v3_v3 (sub_v3_v3v3 pnear pfar) pnear

/-- The loose-edge position query exactly as the spec words it: linear lerp
for the simple scheme, else the 4-point B-spline blend whose middle control
points are the edge's endpoints and whose outer points are
`spec_outer_control_point` of the respective endpoint. -/
def spec_loose_edge_position (coarse_verts : List MVert) (coarse_edges : List MEdge)
    (edge_index : Nat) (is_simple : Bool) (u : ℚ) : Vec3 :=
  let e := coarse_edges.getD edge_index default
  let p1 := (coarse_verts.getD e.v1 default).co
  let p2 := (coarse_verts.getD e.v2 default).co
  if is_simple then interp_v3_v3v3 p1 p2 u
  else
    interp_v3_v3v3v3v3
      (spec_outer_control_point coarse_verts coarse_edges edge_index e.v1 p1 p2)
      p1 p2
      (spec_outer_control_point coarse_verts coarse_edges edge_index e.v2 p2 p1)
      (key_curve_position_weights u)

/-- C4: the loose-edge position query over the vertex-to-edge adjacency map
computes exactly the spec's description — simple scheme: linear interpolation
of the edge endpoints by `u`; otherwise a 4-point B-spline blend whose middle
control points are the endpoints and whose outer control points come from the
unique other touching edge when exactly one exists, else the linear
extrapolation through the edge. -/
theorem loose_edge_position_matches_spec (coarse_verts : List MVert)
    (coarse_edges : List MEdge) (edge_index : Nat) (is_simple : Bool) (u : ℚ) :
    BKE_subdiv_mesh_interpolate_position_on_edge coarse_verts coarse_edges
      (vert_to_edge_map coarse_edges) edge_index is_simple u =
    spec_loose_edge_position coarse_verts coarse_edges edge_index is_simple u := by
  cases is_simple with
  | true =>
    simp [BKE_subdiv_mesh_interpolate_position_on_edge, spec_loose_edge_position]
  | false =>
    simp only [BKE_subdiv_mesh_interpolate_position_on_edge, spec_loose_edge_position,
      Bool.false_eq_true, if_false, find_edge_neighbors_eq_spec,
      points_for_loose_edges_interpolation_get, spec_outer_control_point]
    rcases hF1 : spec_other_edges_at_vertex coarse_edges edge_index
        (coarse_edges.getD edge_index default).v1 with _ | ⟨a, _ | ⟨b, r⟩⟩ <;>
      rcases hF2 : spec_other_edges_at_vertex coarse_edges edge_index
          (coarse_edges.getD edge_index default).v2 with _ | ⟨c, _ | ⟨d, r2⟩⟩ <;>
        simp

theorem Vec3.ext_components (a b : Vec3) (hx : a.x = b.x) (hy : a.y = b.y)
    (hz : a.z = b.z) : a = b := by
  cases a
  cases b
  simp_all

theorem interp_v3_v3v3_at_zero (a b : Vec3) : interp_v3_v3v3 a b 0 = a := by
  apply Vec3.ext_components <;> simp only [interp_v3_v3v3] <;> ring

theorem interp_v3_v3v3_at_one (a b : Vec3) : interp_v3_v3v3 a b 1 = b := by
  apply Vec3.ext_components <;> simp only [interp_v3_v3v3] <;> ring

theorem bspline_blend_extrapolated_at_zero (p1 p2 p3 : Vec3) :
    interp_v3_v3v3v3v3 (add_v3_v3 (sub_v3_v3v3 p1 p2) p1) p1 p2 p3
      (key_curve_position_weights 0) = p1 := by
  apply Vec3.ext_components <;>
    simp only [interp_v3_v3v3v3v3, add_v3_v3, sub_v3_v3v3, key_curve_position_weights] <;>
    ring

theorem bspline_blend_extrapolated_at_one (p0 p1 p2 : Vec3) :
    interp_v3_v3v3v3v3 p0 p1 p2 (add_v3_v3 (sub_v3_v3v3 p2 p1) p2)
      (key_curve_position_weights 1) = p2 := by
  apply Vec3.ext_components <;>
    simp only [interp_v3_v3v3v3v3, add_v3_v3, sub_v3_v3v3, key_curve_position_weights] <;>
    ring

/-- Counterexample for C5 as stated: coarse wire with three vertices at
`(6,0,0)`, `(0,0,0)`, `(0,6,0)` and two loose edges `0-1`, `1-2`.  On edge 1
in the B-spline branch, endpoint vertex 1 has the unique neighbor edge 0, so
the outer control point is the real neighbor position, and the blend at
`u = 0` is `(p0 + 4*p1 + p2)/6 = (1,1,0)`, NOT the endpoint position
`(0,0,0)`. -/
theorem loose_edge_endpoint_not_exact_with_neighbor :
    ¬ (BKE_subdiv_mesh_interpolate_position_on_edge
        [⟨⟨6, 0, 0⟩⟩, ⟨⟨0, 0, 0⟩⟩, ⟨⟨0, 6, 0⟩⟩]
        [⟨0, 1, 0⟩, ⟨1, 2, 0⟩]
        (vert_to_edge_map [⟨0, 1, 0⟩, ⟨1, 2, 0⟩]) 1 false 0 =
      (([⟨⟨6, 0, 0⟩⟩, ⟨⟨0, 0, 0⟩⟩, ⟨⟨0, 6, 0⟩⟩] : List MVert).getD
        (([⟨0, 1, 0⟩, ⟨1, 2, 0⟩] : List MEdge).getD 1 default).v1 default).co) := by
  have hnb : find_edge_neighbors [⟨0, 1, 0⟩, ⟨1, 2, 0⟩]
      (vert_to_edge_map [⟨0, 1, 0⟩, ⟨1, 2, 0⟩]) 1 = (some 0, none) := by decide
  have hval : BKE_subdiv_mesh_interpolate_position_on_edge
      [⟨⟨6, 0, 0⟩⟩, ⟨⟨0, 0, 0⟩⟩, ⟨⟨0, 6, 0⟩⟩] [⟨0, 1, 0⟩, ⟨1, 2, 0⟩]
      (vert_to_edge_map [⟨0, 1, 0⟩, ⟨1, 2, 0⟩]) 1 false 0 = ⟨1, 1, 0⟩ := by
    simp only [BKE_subdiv_mesh_interpolate_position_on_edge, Bool.false_eq_true,
      if_false, hnb, points_for_loose_edges_interpolation_get]
    apply Vec3.ext_components <;>
      norm_num [key_curve_position_weights, interp_v3_v3v3v3v3, add_v3_v3, sub_v3_v3v3,
        List.getD_cons_zero, List.getD_cons_succ]
  rw [hval]
  intro hcontra
  have hx := congrArg Vec3.x hcontra
  norm_num [List.getD_cons_zero, List.getD_cons_succ] at hx

/-- C5 amended: evaluating the loose-edge position at `u = 0` (resp. `u = 1`)
reproduces the first (resp. second) endpoint position exactly in the simple
branch always, and in the B-spline branch exactly when `find_edge_neighbors`
yields no usable neighbor at that endpoint (zero or two-plus other touching
edges), where the extrapolated outer control point makes the blend collapse
onto the endpoint; with a usable neighbor the endpoint position is the
genuine B-spline blend instead. -/
theorem loose_edge_endpoints_exact_cases (coarse_verts : List MVert)
    (coarse_edges : List MEdge) (vmap : Nat → List Nat) (ei : Nat) :
    (BKE_subdiv_mesh_interpolate_position_on_edge coarse_verts coarse_edges vmap
        ei true 0 =
      (coarse_verts.getD (coarse_edges.getD ei default).v1 default).co) ∧
    (BKE_subdiv_mesh_interpolate_position_on_edge coarse_verts coarse_edges vmap
        ei true 1 =
      (coarse_verts.getD (coarse_edges.getD ei default).v2 default).co) ∧
    ((find_edge_neighbors coarse_edges vmap ei).1 = none →
      BKE_subdiv_mesh_interpolate_position_on_edge coarse_verts coarse_edges vmap
          ei false 0 =
        (coarse_verts.getD (coarse_edges.getD ei default).v1 default).co) ∧
    ((find_edge_neighbors coarse_edges vmap ei).2 = none →
      BKE_subdiv_mesh_interpolate_position_on_edge coarse_verts coarse_edges vmap
          ei false 1 =
        (coarse_verts.getD (coarse_edges.getD ei default).v2 default).co) := by
  refine ⟨?_, ?_, ?_, ?_⟩
  · simp only [BKE_subdiv_mesh_interpolate_position_on_edge, if_true]
    exact interp_v3_v3v3_at_zero _ _
  · simp only [BKE_subdiv_mesh_interpolate_position_on_edge, if_true]
    exact interp_v3_v3v3_at_one _ _
  · intro h
    simp only [BKE_subdiv_mesh_interpolate_position_on_edge, Bool.false_eq_true,
      if_false, points_for_loose_edges_interpolation_get]
    rw [h]
    exact bspline_blend_extrapolated_at_zero _ _ _
  · intro h
    simp only [BKE_subdiv_mesh_interpolate_position_on_edge, Bool.false_eq_true,
      if_false, points_for_loose_edges_interpolation_get]
    rw [h]
    exact bspline_blend_extrapolated_at_one _ _ _

/-- Witness for C5 amended: a single isolated loose edge (no neighbors at
either endpoint), where the B-spline branch at `u = 0` and `u = 1` lands
exactly on the endpoints. -/
theorem loose_edge_endpoints_exact_cases_witness :
    (find_edge_neighbors [⟨0, 1, 0⟩] (vert_to_edge_map [⟨0, 1, 0⟩]) 0).1 = none ∧
    (find_edge_neighbors [⟨0, 1, 0⟩] (vert_to_edge_map [⟨0, 1, 0⟩]) 0).2 = none ∧
    BKE_subdiv_mesh_interpolate_position_on_edge [⟨⟨1, 2, 3⟩⟩, ⟨⟨4, 5, 6⟩⟩]
        [⟨0, 1, 0⟩] (vert_to_edge_map [⟨0, 1, 0⟩]) 0 false 0 =
      (([⟨⟨1, 2, 3⟩⟩, ⟨⟨4, 5, 6⟩⟩] : List MVert).getD
        (([⟨0, 1, 0⟩] : List MEdge).getD 0 default).v1 default).co ∧
    BKE_subdiv_mesh_interpolate_position_on_edge [⟨⟨1, 2, 3⟩⟩, ⟨⟨4, 5, 6⟩⟩]
        [⟨0, 1, 0⟩] (vert_to_edge_map [⟨0, 1, 0⟩]) 0 false 1 =
      (([⟨⟨1, 2, 3⟩⟩, ⟨⟨4, 5, 6⟩⟩] : List MVert).getD
        (([⟨0, 1, 0⟩] : List MEdge).getD 0 default).v2 default).co :=
  ⟨by decide, by decide,
   (loose_edge_endpoints_exact_cases [⟨⟨1, 2, 3⟩⟩, ⟨⟨4, 5, 6⟩⟩] [⟨0, 1, 0⟩]
      (vert_to_edge_map [⟨0, 1, 0⟩]) 0).2.2.1 (by decide),
   (loose_edge_endpoints_exact_cases [⟨⟨1, 2, 3⟩⟩, ⟨⟨4, 5, 6⟩⟩] [⟨0, 1, 0⟩]
      (vert_to_edge_map [⟨0, 1, 0⟩]) 0).2.2.2 (by decide)⟩
